import Mathlib

/-!
Verification of the multi-agent coordination engine: a shallow embedding of
the A2A message protocol (src/a2a/protocol.py), the workflow orchestrator
(src/coordination/orchestrator.py) and the confidence-based router
(src/agents/main_agent_a2a.py), with theorems checking the stated properties
of these components.

Modelling conventions:
- Python floats (timestamps, confidences, scores) are modelled as rationals.
- Python dicts with string keys are modelled as association lists.
- Nondeterministic inputs (uuid4 message ids, wall-clock times, remote agent
  responses) are passed as explicit parameters.
- HMAC-SHA256 is modelled symbolically: a signature value is the pair of the
  key and the canonically serialized signing data.  Equal key/data give equal
  digests (determinism of HMAC) and distinct key/data give distinct digests
  (the symbolic collision-freeness assumption standard in protocol models);
  json.dumps with sort_keys=True is injective on the signing record, so the
  record itself stands for the canonical JSON bytes.
-/

/-- Embeds the `MessageType` enum of src/a2a/protocol.py. -/
inductive MessageType
  | DISCOVERY_REQUEST
  | DISCOVERY_RESPONSE
  | TASK_REQUEST
  | TASK_RESPONSE
  | CAPABILITY_QUERY
  | CAPABILITY_RESPONSE
  | HEALTH_CHECK
  | HEALTH_RESPONSE
  | DELEGATION_REQUEST
  | DELEGATION_RESPONSE
  | COORDINATION_MESSAGE
deriving DecidableEq, Repr

/-- Embeds the `.value` string of each `MessageType` member. -/
def MessageType.value : MessageType → String
  | .DISCOVERY_REQUEST => "discovery_request"
  | .DISCOVERY_RESPONSE => "discovery_response"
  | .TASK_REQUEST => "task_request"
  | .TASK_RESPONSE => "task_response"
  | .CAPABILITY_QUERY => "capability_query"
  | .CAPABILITY_RESPONSE => "capability_response"
  | .HEALTH_CHECK => "health_check"
  | .HEALTH_RESPONSE => "health_response"
  | .DELEGATION_REQUEST => "delegation_request"
  | .DELEGATION_RESPONSE => "delegation_response"
  | .COORDINATION_MESSAGE => "coordination_message"

/-- Embeds the `sign_data` record built by `A2AProtocol._sign_message`
(src/a2a/protocol.py lines 120-127): the fields serialized (with sorted
keys) into the bytes that get HMAC-signed.  `message_type` holds the enum
string value, exactly as in the source.  The payload `Dict[str, Any]` is
modelled as an association list with string values. -/
structure SignData where
  message_id : String
  message_type : String
  sender_id : String
  recipient_id : String
  timestamp : ℚ
  payload : List (String × String)
deriving DecidableEq, Repr

/-- Symbolic model of `hmac.new(key, message_bytes, sha256).hexdigest()`:
the digest is determined by the key and the signed bytes, and in the
symbolic model distinct inputs give distinct digests. -/
structure HmacDigest where
  key : String
  data : SignData
deriving DecidableEq, Repr

/-- Embeds the `A2AMessage` dataclass of src/a2a/protocol.py. -/
structure A2AMessage where
  message_id : String
  message_type : MessageType
  sender_id : String
  recipient_id : String
  timestamp : ℚ
  payload : List (String × String)
  signature : Option HmacDigest
  correlation_id : Option String
deriving DecidableEq, Repr

/-- Embeds the state of an `A2AProtocol` instance that the signing and
verification paths read (src/a2a/protocol.py lines 81-92).  `secret_key`
holds the value after `__init__` ran, i.e. after the
`secret_key or "default_a2a_key"` defaulting. -/
structure A2AProtocol where
  agent_id : String
  agent_name : String
  endpoint : String
  secret_key : String
deriving DecidableEq, Repr

/-- Embeds `A2AProtocol.__init__` (src/a2a/protocol.py lines 81-92).
`self.secret_key = secret_key or "default_a2a_key"`: both `None` and the
empty string (the two falsy values a `str` argument can take) fall back to
the literal default key. -/
def A2AProtocol.init (agent_id agent_name endpoint : String)
    (secret_key : Option String) : A2AProtocol :=
  { agent_id := agent_id
    agent_name := agent_name
    endpoint := endpoint
    secret_key :=
      match secret_key with
      | none => "default_a2a_key"
      | some k => if k = "" then "default_a2a_key" else k }

/-- Embeds `A2AProtocol._sign_message` (src/a2a/protocol.py lines 117-136):
builds the `sign_data` record (signature field excluded) and returns the
HMAC-SHA256 digest of its canonical sorted-key JSON encoding under
`self.secret_key`, in the symbolic digest model. -/
def A2AProtocol.signMessage (p : A2AProtocol) (m : A2AMessage) : HmacDigest :=
  { key := p.secret_key
    data :=
      { message_id := m.message_id
        message_type := m.message_type.value
        sender_id := m.sender_id
        recipient_id := m.recipient_id
        timestamp := m.timestamp
        payload := m.payload } }

/-- Embeds `A2AProtocol.create_message` (src/a2a/protocol.py lines 94-115).
The fresh `str(uuid.uuid4())` and the `time.time()` reading are passed in as
the explicit parameters `freshId` and `now`.  The message is signed when
`self.secret_key` is truthy (a non-empty string). -/
def A2AProtocol.createMessage (p : A2AProtocol) (freshId : String) (now : ℚ)
    (messageType : MessageType) (recipientId : String)
    (payload : List (String × String)) (correlationId : Option String) :
    A2AMessage :=
  let m : A2AMessage :=
    { message_id := freshId
      message_type := messageType
      sender_id := p.agent_id
      recipient_id := recipientId
      timestamp := now
      payload := payload
      signature := none
      correlation_id := correlationId }
  if p.secret_key = "" then m else { m with signature := some (p.signMessage m) }

/-- Embeds `A2AProtocol.verify_message` (src/a2a/protocol.py lines 138-144):
returns true when the message carries no signature or no key is configured
(`if not message.signature or not self.secret_key: return True`), otherwise
recomputes the expected signature and compares
(`hmac.compare_digest`, which is equality with timing hidden). -/
def A2AProtocol.verifyMessage (p : A2AProtocol) (m : A2AMessage) : Bool :=
  match m.signature with
  | none => true
  | some sig =>
      if p.secret_key = "" then true
      else sig = p.signMessage m

/-- Embeds the `TaskStatus` enum of src/coordination/orchestrator.py. -/
inductive TaskStatus
  | PENDING
  | RUNNING
  | COMPLETED
  | FAILED
  | CANCELLED
  | WAITING_DEPENDENCIES
deriving DecidableEq, Repr

/-- Embeds the `CoordinationPattern` enum of src/coordination/orchestrator.py. -/
inductive CoordinationPattern
  | SEQUENTIAL
  | PARALLEL
  | PIPELINE
  | HIERARCHICAL
  | CONSENSUS
  | COMPETITIVE
  | COLLABORATIVE
deriving DecidableEq, Repr

/-- Embeds the `TaskNode` dataclass of src/coordination/orchestrator.py
(lines 48-65), restricted to the fields the coordination algorithms read.
`metadata_critical` models `metadata.get("critical", False)`, the only
metadata key the sequential pattern reads; `input_data`, the timing fields
and `timeout` do not feed any control decision modelled here and are
omitted.  Task results are modelled as strings. -/
structure TaskNode where
  task_id : String
  description : String
  agent_id : String
  dependencies : List String
  status : TaskStatus
  result : Option String
  error : Option String
  retry_count : Nat
  max_retries : Nat
  metadata_critical : Bool
deriving DecidableEq, Repr

/-- Embeds `MultiAgentOrchestrator._execute_single_task`
(src/coordination/orchestrator.py lines 418-472).  The remote agent response
for each attempt is abstracted by `outcome : Nat → Except String String`:
`outcome n` is either the successful result of the n-th attempt or the error
message raised for it (an unknown agent, a transport failure, a response
whose payload status is not "success").  The function returns the task node
with its final mutated state, paired with the value the Python call returns
(`.ok result`) or the exception it raises after exhausting retries
(`.error e`).  The `asyncio.sleep(1)` backoff between attempts is real time
and has no effect on the computed state, so it is not modelled. -/
def executeSingleTask (outcome : Nat → Except String String) (attempt : Nat)
    (task : TaskNode) : TaskNode × Except String String :=
  let running : TaskNode := { task with status := TaskStatus.RUNNING }
  match outcome attempt with
  | Except.ok r =>
      ({ running with status := TaskStatus.COMPLETED, result := some r },
        Except.ok r)
  | Except.error e =>
      let failed : TaskNode :=
        { running with status := TaskStatus.FAILED, error := some e }
      if failed.retry_count < failed.max_retries then
        executeSingleTask outcome (attempt + 1)
          { failed with retry_count := failed.retry_count + 1 }
      else
        (failed, Except.error e)
termination_by task.max_retries - task.retry_count
decreasing_by simp_all; omega

/-- Embeds `MultiAgentOrchestrator._execute_sequential`
(src/coordination/orchestrator.py lines 187-206).  Tasks run strictly in
list order; each result is recorded under its task id.  A task call that
raises (retries exhausted) propagates its exception out of the loop, exactly
as in the source, where `await self._execute_single_task(task)` is not
wrapped in a try block; the critical-task check after the call is embedded
as written.  Returns the per-task results together with the final task
states, or the propagated exception. -/
def executeSequential (env : String → Nat → Except String String) :
    List TaskNode → List (String × String) → List TaskNode →
    Except String (List (String × String) × List TaskNode)
  | [], results, done => Except.ok (results, done.reverse)
  | t :: ts, results, done =>
      match executeSingleTask (env t.task_id) 0 t with
      | (_, Except.error e) => Except.error e
      | (t2, Except.ok r) =>
          let results2 := results ++ [(t2.task_id, r)]
          if t2.status = TaskStatus.FAILED ∧ t2.metadata_critical then
            Except.error
              ("Critical task " ++ t2.task_id ++ " failed: " ++
                (t2.error.getD "None"))
          else
            executeSequential env ts results2 (t2 :: done)

/-- Models one `completed_tasks.add(task.task_id)` on the `completed_tasks`
set of `_execute_hierarchical`, with the set represented as a
duplicate-free list in insertion order. -/
def addCompleted (completed : List String) (tid : String) : List String :=
  if tid ∈ completed then completed else completed ++ [tid]

/-- Adds the ids of one round of executed tasks to the completed set. -/
def addAllCompleted (completed : List String) (ids : List String) : List String :=
  ids.foldl addCompleted completed

theorem addAllCompleted_length_ge (ids : List String) (completed : List String) :
    completed.length ≤ (addAllCompleted completed ids).length := by
  induction ids generalizing completed with
  | nil => simp [addAllCompleted]
  | cons i rest ih =>
      refine le_trans ?_ (ih (addCompleted completed i))
      unfold addCompleted
      split <;> simp

theorem addAllCompleted_length_gt (ids : List String) (completed : List String)
    (tid : String) (hmem : tid ∈ ids) (hnot : tid ∉ completed) :
    completed.length < (addAllCompleted completed ids).length := by
  induction ids generalizing completed with
  | nil => cases hmem
  | cons i rest ih =>
      show completed.length < (addAllCompleted (addCompleted completed i) rest).length
      rcases List.mem_cons.mp hmem with heq | htail
      · subst heq
        refine lt_of_lt_of_le ?_ (addAllCompleted_length_ge rest _)
        simp only [addCompleted, if_neg hnot]
        simp
      · by_cases hi : tid = i
        · subst hi
          refine lt_of_lt_of_le ?_ (addAllCompleted_length_ge rest _)
          simp only [addCompleted, if_neg hnot]
          simp
        · have hnot2 : tid ∉ addCompleted completed i := by
            unfold addCompleted
            split
            · exact hnot
            · intro hx
              rcases List.mem_append.mp hx with h1 | h2
              · exact hnot h1
              · exact hi (List.mem_singleton.mp h2)
          have := ih (addCompleted completed i) htail hnot2
          refine lt_of_le_of_lt ?_ this
          unfold addCompleted
          split <;> simp

/-- Readiness predicate of `_execute_hierarchical`
(src/coordination/orchestrator.py lines 277-281): a task is ready when it
has not finished yet and every entry of its `dependencies` list is in the
`completed_tasks` set. -/
def taskReady (completed : List String) (t : TaskNode) : Bool :=
  decide (t.task_id ∉ completed ∧ ∀ d ∈ t.dependencies, d ∈ completed)

/-- Embeds the `while len(completed_tasks) < len(tasks)` loop of
`MultiAgentOrchestrator._execute_hierarchical`
(src/coordination/orchestrator.py lines 264-308).  Each round filters the
ready tasks; an empty ready set raises the circular-dependency error;
otherwise every ready task is executed (its exception, if any, is captured
by `asyncio.gather(..., return_exceptions=True)` and stored as the task's
result entry) and its id enters the completed set, whether it ended
COMPLETED or FAILED.  `results` is the execution trace: the task nodes in
the order they were handed to `_execute_single_task`, each with the final
state and outcome that round produced for it (the Python `results` dict is
this trace keyed by `task_id`). -/
def executeHierarchical (env : String → Nat → Except String String)
    (tasks : List TaskNode) (completed : List String)
    (results : List (TaskNode × Except String String)) :
    Except String (List (TaskNode × Except String String)) :=
  if _hlen : completed.length < tasks.length then
    let ready := tasks.filter (taskReady completed)
    if hready : ready = [] then
      Except.error "Circular dependency or unresolvable dependencies detected"
    else
      let roundResults := ready.map (fun t => executeSingleTask (env t.task_id) 0 t)
      executeHierarchical env tasks
        (addAllCompleted completed (ready.map TaskNode.task_id))
        (results ++ roundResults)
  else
    Except.ok results
termination_by tasks.length - completed.length
decreasing_by
  obtain ⟨t0, ht0⟩ := List.exists_mem_of_ne_nil _ hready
  have hprop := of_decide_eq_true (List.mem_filter.mp ht0).2
  have hgt := addAllCompleted_length_gt
    ((tasks.filter (taskReady completed)).map TaskNode.task_id) completed
    t0.task_id (List.mem_map_of_mem _ ht0) hprop.1
  omega

/-- The hierarchical pattern handler as called by `execute_workflow`: the
loop starts with an empty completed set and an empty results map. -/
def executeHierarchicalFull (env : String → Nat → Except String String)
    (tasks : List TaskNode) : Except String (List (TaskNode × Except String String)) :=
  executeHierarchical env tasks [] []

/-- Embeds the `WorkflowResult` dataclass of src/coordination/orchestrator.py
(lines 68-79).  The `metrics` dict is timing statistics derived from the
same task data and feeds no control decision; it is omitted. -/
structure WorkflowResult where
  workflow_id : String
  status : TaskStatus
  results : List (String × String)
  execution_time : ℚ
  task_results : List TaskNode
  coordination_pattern : CoordinationPattern
  summary : String
deriving DecidableEq, Repr

/-- Embeds `MultiAgentOrchestrator._generate_workflow_summary`
(src/coordination/orchestrator.py lines 560-577).  The Python
`agents_involved` value is a set; its iteration order is modelled as first
occurrence order over the task list. -/
def generateWorkflowSummary (workflowId : String) (tasks : List TaskNode) :
    String :=
  let total := tasks.length
  let completedCount :=
    (tasks.filter (fun t => decide (t.status = TaskStatus.COMPLETED))).length
  let failedCount :=
    (tasks.filter (fun t => decide (t.status = TaskStatus.FAILED))).length
  let agents := (tasks.map TaskNode.agent_id).foldl addCompleted []
  let base :=
    "Workflow \x27" ++ workflowId ++ "\x27: " ++ toString completedCount ++
      "/" ++ toString total ++ " tasks completed"
  let base :=
    if failedCount > 0 then base ++ ", " ++ toString failedCount ++ " failed"
    else base
  base ++ ". Agents involved: " ++ String.intercalate ", " agents

/-- Embeds `MultiAgentOrchestrator.execute_workflow`
(src/coordination/orchestrator.py lines 126-185).  The chosen pattern
handler (looked up in `coordination_handlers[pattern]`) is abstracted by
`handler`, returning either its results dict or the exception it raises;
`tasks` carries the task nodes as they stand after the handler ran (Python
mutates them in place, so `active_workflows[workflow_id]` holds the same
objects).  The elapsed wall-clock time is the parameter `executionTime`,
and the `workflow_results` registry is the map `store`.  Returns the
`WorkflowResult` handed to the caller together with the updated registry:
the try/except converts any handler exception into a FAILED result with
`results = {"error": str(e)}` and summary `"Workflow failed: " + str(e)`,
so no exception ever propagates. -/
def executeWorkflow (workflowId : String) (tasks : List TaskNode)
    (pattern : CoordinationPattern)
    (handler : List TaskNode → Except String (List (String × String)))
    (executionTime : ℚ) (store : String → Option WorkflowResult) :
    WorkflowResult × (String → Option WorkflowResult) :=
  match handler tasks with
  | Except.ok results =>
      let r : WorkflowResult :=
        { workflow_id := workflowId
          status := TaskStatus.COMPLETED
          results := results
          execution_time := executionTime
          task_results := tasks
          coordination_pattern := pattern
          summary := generateWorkflowSummary workflowId tasks }
      (r, fun k => if k = workflowId then some r else store k)
  | Except.error e =>
      let r : WorkflowResult :=
        { workflow_id := workflowId
          status := TaskStatus.FAILED
          results := [("error", e)]
          execution_time := executionTime
          task_results := tasks
          coordination_pattern := pattern
          summary := "Workflow failed: " ++ e }
      (r, fun k => if k = workflowId then some r else store k)

/-- Embeds `MultiAgentOrchestrator._evaluate_result_quality`
(src/coordination/orchestrator.py lines 529-546).  A result value enters the
heuristic only through three observables, which are taken as parameters:
whether it is falsy (`if not result: return 0.0`), whether it is a dict
(`isinstance(result, dict)`), and the length of `str(result)`. -/
def evaluateResultQuality (isDict : Bool) (truthy : Bool) (strLen : Nat) : ℚ :=
  if truthy = false then 0
  else
    let lengthScore : ℚ := min 5 ((strLen : ℚ) / 100)
    let structureBonus : ℚ := if isDict then 2 else 0
    let detailBonus : ℚ := if strLen > 200 then 2 else 1
    min 10 (lengthScore + structureBonus + detailBonus)

/-- Embeds `MultiAgentOrchestrator._determine_winner`
(src/coordination/orchestrator.py lines 509-527).  Each competitor is a
triple of agent id, `quality_score` and `execution_time` (the fields
`_execute_competitive` stores for it); the fold mirrors the loop that keeps
the first strictly best `quality + max(0, 10 - execution_time) * 0.1`
score, starting from best_score = -1 and winner = None. -/
def determineWinner (agentResults : List (String × ℚ × ℚ)) : Option String :=
  (agentResults.foldl
    (fun (acc : ℚ × Option String) e =>
      let speedBonus : ℚ := max 0 (10 - e.2.2)
      let totalScore : ℚ := e.2.1 + speedBonus * (1 / 10)
      if totalScore > acc.1 then (totalScore, some e.1) else acc)
    (-1, none)).2

/-- Character-list version of Python string containment: does the hay list
start with the needle list. -/
def startsWithSeq : List Char → List Char → Bool
  | [], _ => true
  | _ :: _, [] => false
  | a :: as, b :: bs => a == b && startsWithSeq as bs

/-- Does the needle occur as a contiguous subsequence of the hay list. -/
def hasSubSeq (needle : List Char) : List Char → Bool
  | [] => startsWithSeq needle []
  | c :: rest => startsWithSeq needle (c :: rest) || hasSubSeq needle rest

/-- Embeds the Python substring test `needle in hay` used by the router. -/
def strContains (hay needle : String) : Bool :=
  hasSubSeq needle.data hay.data

/-- Embeds Python `str.lower()` (the queries and keywords involved are
ASCII). -/
def pyLower (s : String) : String :=
  ⟨s.data.map Char.toLower⟩

/-- Whitespace as stripped by Python `str.strip()` (restricted to the ASCII
whitespace characters). -/
def isSpaceChar (c : Char) : Bool :=
  c = ' ' || c = '\t' || c = '\n' || c = '\r'

/-- Embeds Python `str.strip()`: drop leading and trailing whitespace. -/
def pyStrip (s : String) : String :=
  ⟨((s.data.dropWhile isSpaceChar).reverse.dropWhile isSpaceChar).reverse⟩

/-- The keyword list of the greeting agent's specialization entry
(src/agents/main_agent_a2a.py lines 155-165). -/
def greetingKeywords : List String :=
  ["hello", "hi", "hey", "goodbye", "bye", "thank", "help",
    "who are you", "how are you"]

/-- The keyword list of the HR agent's specialization entry
(src/agents/main_agent_a2a.py lines 170-180). -/
def hrKeywords : List String :=
  ["employee", "department", "salary", "payroll", "hierarchy", "team",
    "staff", "manager", "organization"]

/-- Embeds the `agent_specializations` table of `MainAgentA2A.__init__`
(src/agents/main_agent_a2a.py lines 153-184): for each agent id, its
keyword list and its `confidence_threshold`. -/
def agentSpecializations : List (String × List String × ℚ) :=
  [("greeting_agent", (greetingKeywords, 8 / 10)),
   ("hr_agent", (hrKeywords, 9 / 10))]

/-- Embeds the per-agent confidence computation of
`MainAgentA2A.determine_best_agent_a2a`
(src/agents/main_agent_a2a.py lines 207-213): count the keywords occurring
in the lowered query, take `min(matchCount / total, 1.0)`, and boost by 1.2
(capped at 1.0) when the confidence is positive. -/
def keywordConfidence (keywords : List String) (queryLower : String) : ℚ :=
  let matchCount := (keywords.filter (fun k => strContains queryLower k)).length
  let confidence := min ((matchCount : ℚ) / (keywords.length : ℚ)) 1
  if confidence > 0 then min (confidence * (12 / 10)) 1 else confidence

/-- Embeds `MainAgentA2A.determine_best_agent_a2a`
(src/agents/main_agent_a2a.py lines 200-224).  The fold mirrors the loop
over `agent_specializations` (Python dict iteration is insertion order)
keeping the first strictly best eligible agent
(`confidence > best_confidence and confidence >= threshold`); afterwards
`if not best_agent or best_confidence < 0.3` routes to the greeting agent
with confidence 0.5 (`not best_agent` is the None test — agent ids are
non-empty strings — and the `getD` default in the other branch is
unreachable since that branch requires `pick.1 ≠ none`). -/
def determineBestAgentA2A (query : String) : String × ℚ :=
  let queryLower := pyStrip (pyLower query)
  let pick :=
    agentSpecializations.foldl
      (fun (acc : Option String × ℚ) spec =>
        let confidence := keywordConfidence spec.2.1 queryLower
        if confidence > acc.2 ∧ confidence ≥ spec.2.2 then
          (some spec.1, confidence)
        else acc)
      (none, 0)
  if pick.1 = none ∨ pick.2 < 3 / 10 then ("greeting_agent", 1 / 2)
  else (pick.1.getD "greeting_agent", pick.2)

/-- The protocol instance the orchestrator builds in
`MultiAgentOrchestrator.__init__` (src/coordination/orchestrator.py lines
94-99), with `A2A_SECRET_KEY` unset so that the default secret applies. -/
def orchestratorProtocol : A2AProtocol :=
  A2AProtocol.init "coordination_orchestrator" "MultiAgentOrchestrator"
    "http://localhost:8004" (some "rag_a2a_mcp_secret")

theorem MessageType.value_injective :
    ∀ a b : MessageType, a.value = b.value → a = b := by
  intro a b
  cases a <;> cases b <;> decide

/-- C3 counterexample: two messages produced by separate `create_message`
calls on the same protocol instance, agreeing on `sender_id`,
`recipient_id`, `payload`, `message_type` and `timestamp` but carrying the
two distinct fresh uuids "id-1" and "id-2", receive different signatures,
because `_sign_message` includes `message_id` in the canonical sorted-key
JSON it signs. -/
theorem c3_counterexample :
    (orchestratorProtocol.createMessage "id-1" 100 MessageType.DELEGATION_REQUEST
        "hr_agent_specialist" [("task", "lookup")] none).sender_id =
      (orchestratorProtocol.createMessage "id-2" 100 MessageType.DELEGATION_REQUEST
        "hr_agent_specialist" [("task", "lookup")] none).sender_id ∧
    (orchestratorProtocol.createMessage "id-1" 100 MessageType.DELEGATION_REQUEST
        "hr_agent_specialist" [("task", "lookup")] none).recipient_id =
      (orchestratorProtocol.createMessage "id-2" 100 MessageType.DELEGATION_REQUEST
        "hr_agent_specialist" [("task", "lookup")] none).recipient_id ∧
    (orchestratorProtocol.createMessage "id-1" 100 MessageType.DELEGATION_REQUEST
        "hr_agent_specialist" [("task", "lookup")] none).payload =
      (orchestratorProtocol.createMessage "id-2" 100 MessageType.DELEGATION_REQUEST
        "hr_agent_specialist" [("task", "lookup")] none).payload ∧
    (orchestratorProtocol.createMessage "id-1" 100 MessageType.DELEGATION_REQUEST
        "hr_agent_specialist" [("task", "lookup")] none).message_type =
      (orchestratorProtocol.createMessage "id-2" 100 MessageType.DELEGATION_REQUEST
        "hr_agent_specialist" [("task", "lookup")] none).message_type ∧
    (orchestratorProtocol.createMessage "id-1" 100 MessageType.DELEGATION_REQUEST
        "hr_agent_specialist" [("task", "lookup")] none).timestamp =
      (orchestratorProtocol.createMessage "id-2" 100 MessageType.DELEGATION_REQUEST
        "hr_agent_specialist" [("task", "lookup")] none).timestamp ∧
    (orchestratorProtocol.createMessage "id-1" 100 MessageType.DELEGATION_REQUEST
        "hr_agent_specialist" [("task", "lookup")] none).signature ≠
      (orchestratorProtocol.createMessage "id-2" 100 MessageType.DELEGATION_REQUEST
        "hr_agent_specialist" [("task", "lookup")] none).signature := by
  decide

/-- C3 amended: `_sign_message` is deterministic in the full signed record:
two messages receive identical signatures precisely when the secret keys
agree and all six signed fields — `message_id` included — agree.  Since
`message_id` is a fresh uuid per `create_message` call, two separately
created messages with the other five fields equal but distinct ids receive
distinct signatures. -/
theorem c3_sign_deterministic (p q : A2AProtocol) (m1 m2 : A2AMessage) :
    p.signMessage m1 = q.signMessage m2 ↔
      (p.secret_key = q.secret_key ∧ m1.message_id = m2.message_id ∧
        m1.message_type = m2.message_type ∧ m1.sender_id = m2.sender_id ∧
        m1.recipient_id = m2.recipient_id ∧ m1.timestamp = m2.timestamp ∧
        m1.payload = m2.payload) := by
  constructor
  · intro h
    have hk := congrArg HmacDigest.key h
    have hd := congrArg HmacDigest.data h
    refine ⟨hk, congrArg SignData.message_id hd, ?_,
      congrArg SignData.sender_id hd, congrArg SignData.recipient_id hd,
      congrArg SignData.timestamp hd, congrArg SignData.payload hd⟩
    exact MessageType.value_injective _ _ (congrArg SignData.message_type hd)
  · rintro ⟨hk, hid, hmt, hs, hr, ht, hp⟩
    unfold A2AProtocol.signMessage
    rw [hk, hid, hmt, hs, hr, ht, hp]

/-- A signature produced under the key "wrong_key" rather than the
verifier's key. -/
def tamperedSig : HmacDigest :=
  { key := "wrong_key"
    data :=
      { message_id := "mid-1"
        message_type := "health_check"
        sender_id := "agent_x"
        recipient_id := "agent_y"
        timestamp := 0
        payload := [] } }

/-- A signed message whose signature was not produced with the verifying
key over this message's fields. -/
def tamperedMessage : A2AMessage :=
  { message_id := "mid-1"
    message_type := MessageType.HEALTH_CHECK
    sender_id := "agent_x"
    recipient_id := "agent_y"
    timestamp := 0
    payload := []
    signature := some tamperedSig
    correlation_id := none }

/-- C4 counterexample: an `A2AProtocol` built with `secret_key=None` still
signs — `__init__` replaces the falsy argument with "default_a2a_key" — so
a created message's signature field is not absent; and `verify_message` on
that instance is not identically true: it rejects a message signed under a
different key. -/
theorem c4_counterexample :
    ((A2AProtocol.init "agent_x" "AgentX" "http://localhost:9000"
        none).createMessage "mid-1" 0 MessageType.HEALTH_CHECK "agent_y" []
        none).signature ≠ none ∧
    (A2AProtocol.init "agent_x" "AgentX" "http://localhost:9000"
        none).verifyMessage tamperedMessage = false := by
  decide

/-- C4 amended: constructing an `A2AProtocol` with no secret key falls back
to the default key "default_a2a_key"; every message returned by
`create_message` carries a signature under that key, `verify_message`
accepts every message the instance itself created, and it rejects any
message whose carried signature differs from the recomputed one — there is
no open/unauthenticated mode. -/
theorem c4_default_key_mode (aid an ep freshId : String) (now : ℚ)
    (mt : MessageType) (recip : String) (payload : List (String × String))
    (corr : Option String) :
    (A2AProtocol.init aid an ep none).secret_key = "default_a2a_key" ∧
    ((A2AProtocol.init aid an ep none).createMessage freshId now mt recip
        payload corr).signature ≠ none ∧
    (A2AProtocol.init aid an ep none).verifyMessage
      ((A2AProtocol.init aid an ep none).createMessage freshId now mt recip
        payload corr) = true ∧
    (∀ (m : A2AMessage) (sig : HmacDigest), m.signature = some sig →
      sig ≠ (A2AProtocol.init aid an ep none).signMessage m →
      (A2AProtocol.init aid an ep none).verifyMessage m = false) := by
  refine ⟨rfl, ?_, ?_, ?_⟩
  · simp [A2AProtocol.init, A2AProtocol.createMessage]
  · simp [A2AProtocol.init, A2AProtocol.createMessage, A2AProtocol.verifyMessage,
      A2AProtocol.signMessage]
  · intro m sig h1 h2
    simp [A2AProtocol.verifyMessage, A2AProtocol.init, h1]
    exact h2

/-- C4 witness: the amended rejection clause at a concrete input — the
no-key instance rejects `tamperedMessage`. -/
theorem c4_witness :
    (A2AProtocol.init "agent_x" "AgentX" "http://localhost:9000"
      none).verifyMessage tamperedMessage = false :=
  (c4_default_key_mode "agent_x" "AgentX" "http://localhost:9000"
    "mid-1" 0 MessageType.HEALTH_CHECK "agent_y" [] none).2.2.2
    tamperedMessage tamperedSig rfl (by decide)

/-- C6: `verify_message` returns true for every message whose signature
field is None, even on an instance with a secret key configured — the
`if not message.signature or not self.secret_key` guard short-circuits —
and dually a verification failure is only possible for a message that
carries a signature. -/
theorem c6_unsigned_bypasses_verification :
    (∀ (p : A2AProtocol) (m : A2AMessage), m.signature = none →
      p.verifyMessage m = true) ∧
    (∀ (p : A2AProtocol) (m : A2AMessage), p.verifyMessage m = false →
      m.signature ≠ none) := by
  constructor
  · intro p m h
    simp [A2AProtocol.verifyMessage, h]
  · intro p m h hnone
    simp [A2AProtocol.verifyMessage, hnone] at h

/-- An unsigned delegation message addressed to the orchestrator. -/
def unsignedMessage : A2AMessage :=
  { message_id := "mid-7"
    message_type := MessageType.DELEGATION_REQUEST
    sender_id := "main_agent_coordinator"
    recipient_id := "coordination_orchestrator"
    timestamp := 42
    payload := [("task", "report")]
    signature := none
    correlation_id := some "corr-7" }

/-- C6 witness: the orchestrator protocol instance (which has a secret key
configured) accepts the concrete unsigned message. -/
theorem c6_witness : orchestratorProtocol.verifyMessage unsignedMessage = true :=
  c6_unsigned_bypasses_verification.1 orchestratorProtocol unsignedMessage rfl

/-- C5: whatever exception the pattern handler raises, `execute_workflow`
returns (never throws) a `WorkflowResult` with status FAILED whose results
dict is exactly the error entry, whose summary carries the exception
message, and which is also stored under the workflow id in the
`workflow_results` registry. -/
theorem c5_workflow_failure_isolation (workflowId : String)
    (tasks : List TaskNode) (pattern : CoordinationPattern)
    (handler : List TaskNode → Except String (List (String × String)))
    (e : String) (executionTime : ℚ) (store : String → Option WorkflowResult)
    (h : handler tasks = Except.error e) :
    (executeWorkflow workflowId tasks pattern handler executionTime
        store).1.status = TaskStatus.FAILED ∧
    (executeWorkflow workflowId tasks pattern handler executionTime
        store).1.results = [("error", e)] ∧
    (executeWorkflow workflowId tasks pattern handler executionTime
        store).1.summary = "Workflow failed: " ++ e ∧
    (executeWorkflow workflowId tasks pattern handler executionTime
        store).1.workflow_id = workflowId ∧
    (executeWorkflow workflowId tasks pattern handler executionTime
        store).2 workflowId =
      some (executeWorkflow workflowId tasks pattern handler executionTime
        store).1 := by
  unfold executeWorkflow
  rw [h]
  simp

/-- C5 witness: the failure-isolation theorem at a concrete workflow whose
handler raises "boom". -/
theorem c5_witness :
    (executeWorkflow "wf-1" [] CoordinationPattern.SEQUENTIAL
        (fun _ => Except.error "boom") 1 (fun _ => none)).1.status =
      TaskStatus.FAILED :=
  (c5_workflow_failure_isolation "wf-1" [] CoordinationPattern.SEQUENTIAL
    (fun _ => Except.error "boom") "boom" 1 (fun _ => none) rfl).1

theorem executeSingleTask_allFail (msg : Nat → String) :
    ∀ (n : Nat) (task : TaskNode) (a : Nat),
      task.max_retries - task.retry_count = n →
      task.retry_count ≤ task.max_retries →
      executeSingleTask (fun k => Except.error (msg k)) a task =
        ({ task with
            status := TaskStatus.FAILED
            error := some (msg (a + n))
            retry_count := task.retry_count + n },
          Except.error (msg (a + n))) := by
  intro n
  induction n with
  | zero =>
      intro task a h1 h2
      rw [executeSingleTask]
      have hn : ¬ (task.retry_count < task.max_retries) := by omega
      simp [hn]
  | succ n ih =>
      intro task a h1 h2
      rw [executeSingleTask]
      have hlt : task.retry_count < task.max_retries := by omega
      simp only [hlt, if_pos]
      rw [ih _ (a + 1) (by simp; omega) (by simp; omega)]
      have hx : a + 1 + n = a + (n + 1) := by omega
      have hy : task.retry_count + 1 + n = task.retry_count + (n + 1) := by omega
      simp [hx, hy]

/-- C7: a task whose every attempt fails, starting from `retry_count = 0`,
ends with status FAILED and `retry_count` exactly `max_retries`; the error
finally raised to the calling pattern handler is the one produced by the
attempt with index `max_retries`, i.e. the `max_retries + 1`-th and last
attempt. -/
theorem c7_retry_exhaustion (task : TaskNode) (msg : Nat → String)
    (h : task.retry_count = 0) :
    executeSingleTask (fun k => Except.error (msg k)) 0 task =
      ({ task with
          status := TaskStatus.FAILED
          error := some (msg task.max_retries)
          retry_count := task.max_retries },
        Except.error (msg task.max_retries)) := by
  have hall := executeSingleTask_allFail msg (task.max_retries - task.retry_count)
    task 0 rfl (by omega)
  rw [h] at hall
  simpa using hall

/-- A task with a retry budget of 2 whose agent always fails. -/
def alwaysFailTask : TaskNode :=
  { task_id := "t-fail"
    description := "always failing lookup"
    agent_id := "hr_agent_specialist"
    dependencies := []
    status := TaskStatus.PENDING
    result := none
    error := none
    retry_count := 0
    max_retries := 2
    metadata_critical := false }

/-- C7 witness: with `max_retries = 2` and every attempt failing, the task
ends FAILED with `retry_count = 2` and the error of attempt index 2 (the
third and last attempt) is raised. -/
theorem c7_witness :
    executeSingleTask (fun k => Except.error ("attempt " ++ toString k)) 0
        alwaysFailTask =
      ({ alwaysFailTask with
          status := TaskStatus.FAILED
          error := some "attempt 2"
          retry_count := 2 },
        Except.error "attempt 2") := by
  have h := c7_retry_exhaustion alwaysFailTask
    (fun k => "attempt " ++ toString k) rfl
  simpa [alwaysFailTask] using h

/-- C10: the quality heuristic is exactly the claimed formula (zero for a
falsy result, otherwise length score plus structure and detail bonuses
capped at 10), and in a competitive round among three completed results
with quality scores 5.0, 8.0 and 3.0 and arbitrary nonnegative execution
times, the agent with quality 8.0 always wins, since the speed bonus
contributes at most 1.0. -/
theorem c10_competitive_winner :
    (∀ (isDict truthy : Bool) (strLen : Nat),
      evaluateResultQuality isDict truthy strLen =
        if truthy then
          min 10 (min 5 ((strLen : ℚ) / 100) + (if isDict then 2 else 0) +
            (if strLen > 200 then 2 else 1))
        else 0) ∧
    (∀ (a1 a2 a3 : String) (t1 t2 t3 : ℚ), 0 ≤ t1 → 0 ≤ t2 → 0 ≤ t3 →
      determineWinner [(a1, 5, t1), (a2, 8, t2), (a3, 3, t3)] = some a2) := by
  constructor
  · intro d t n
    cases t <;> simp [evaluateResultQuality]
  · intro a1 a2 a3 t1 t2 t3 h1 h2 h3
    have b1l : (0:ℚ) ≤ max 0 (10 - t1) := le_max_left _ _
    have b1u : max 0 (10 - t1) ≤ 10 := max_le (by norm_num) (by linarith)
    have b2l : (0:ℚ) ≤ max 0 (10 - t2) := le_max_left _ _
    have b2u : max 0 (10 - t2) ≤ 10 := max_le (by norm_num) (by linarith)
    have b3l : (0:ℚ) ≤ max 0 (10 - t3) := le_max_left _ _
    have b3u : max 0 (10 - t3) ≤ 10 := max_le (by norm_num) (by linarith)
    simp only [determineWinner, List.foldl]
    split_ifs with hc1 hc2 hc3 hc4 hc5 hc6 hc7 <;>
      first
        | rfl
        | (exfalso; linarith)

/-- C10 witness: three competitors with quality scores 5, 8, 3 and
execution times 1s, 2s, 0s; the quality-8 agent wins. -/
theorem c10_witness :
    determineWinner [("agent_a", 5, 1), ("agent_b", 8, 2), ("agent_c", 3, 0)] =
      some "agent_b" :=
  c10_competitive_winner.2 "agent_a" "agent_b" "agent_c" 1 2 0
    (by norm_num) (by norm_num) (by norm_num)

/-- Environment for the concrete sequential run: agent calls for task "t1"
always fail with "boom"; calls for any other task succeed with "fine". -/
def envC1 : String → Nat → Except String String :=
  fun tid _ => if tid = "t1" then Except.error "boom" else Except.ok "fine"

/-- A non-critical task (no `critical` metadata flag) with no retry budget
whose agent always fails. -/
def taskC1a : TaskNode :=
  { task_id := "t1"
    description := "non-critical failing step"
    agent_id := "hr_agent_specialist"
    dependencies := []
    status := TaskStatus.PENDING
    result := none
    error := none
    retry_count := 0
    max_retries := 0
    metadata_critical := false }

/-- A second task whose agent succeeds. -/
def taskC1b : TaskNode :=
  { task_id := "t2"
    description := "follow-up step"
    agent_id := "greeting_agent_social"
    dependencies := []
    status := TaskStatus.PENDING
    result := none
    error := none
    retry_count := 0
    max_retries := 0
    metadata_critical := false }

/-- C1, evaluated at the failing input: in the SEQUENTIAL pattern the
non-critical failing task "t1" aborts the whole run — `_execute_single_task`
raises after exhausting retries and `_execute_sequential` does not catch the
exception, so the workflow errors out with "boom" and the remaining task
"t2" (which on its own succeeds, third conjunct) is never executed.  The
`critical` guard at orchestrator.py line 203 is unreachable for failed
tasks, since `_execute_single_task` only ever returns normally with status
COMPLETED. -/
theorem c1_noncritical_failure_aborts :
    taskC1a.metadata_critical = false ∧
    executeSequential envC1 [taskC1a, taskC1b] [] [] = Except.error "boom" ∧
    executeSequential envC1 [taskC1b] [] [] =
      Except.ok ([("t2", "fine")],
        [{ taskC1b with status := TaskStatus.COMPLETED, result := some "fine" }]) := by
  refine ⟨rfl, ?_, ?_⟩ <;>
    simp [executeSequential, executeSingleTask, envC1, taskC1a, taskC1b]

theorem router_cases (q : String) :
    determineBestAgentA2A q = ("greeting_agent", 1 / 2) ∨
    (determineBestAgentA2A q = ("greeting_agent",
        keywordConfidence greetingKeywords (pyStrip (pyLower q))) ∧
      keywordConfidence greetingKeywords (pyStrip (pyLower q)) ≥ 8 / 10) ∨
    (determineBestAgentA2A q = ("hr_agent",
        keywordConfidence hrKeywords (pyStrip (pyLower q))) ∧
      keywordConfidence hrKeywords (pyStrip (pyLower q)) ≥ 9 / 10) := by
  unfold determineBestAgentA2A
  simp only [agentSpecializations, List.foldl]
  set cg := keywordConfidence greetingKeywords (pyStrip (pyLower q)) with hcg
  set ch := keywordConfidence hrKeywords (pyStrip (pyLower q)) with hch
  by_cases h1 : cg > 0 ∧ cg ≥ 8 / 10
  · rw [if_pos h1]
    by_cases h2 : ch > (some "greeting_agent", cg).2 ∧ ch ≥ 9 / 10
    · rw [if_pos h2]
      rw [if_neg (by simp; linarith [h2.2])]
      right; right
      exact ⟨rfl, h2.2⟩
    · rw [if_neg h2]
      rw [if_neg (by simp; linarith [h1.2])]
      right; left
      exact ⟨rfl, h1.2⟩
  · rw [if_neg h1]
    by_cases h2 : ch > ((none : Option String), (0:ℚ)).2 ∧ ch ≥ 9 / 10
    · rw [if_pos h2]
      rw [if_neg (by simp; linarith [h2.2])]
      right; right
      exact ⟨rfl, h2.2⟩
    · rw [if_neg h2]
      left
      simp

/-- C9: routing in `determine_best_agent_a2a`.  Part one: a query in which
no keyword of any registered specialization occurs as a substring of the
lowered stripped query routes to the default greeting agent with
confidence exactly 0.5.  Part two: the per-agent confidence is
`min(matched / total, 1.0)`, multiplied by 1.2 and capped at 1.0 exactly
when at least one keyword matched.  Part three: a non-default routing
decision always names a registered agent whose computed confidence meets
that agent's own threshold. -/
theorem c9_confidence_routing :
    (∀ q : String,
      (∀ s ∈ agentSpecializations, ∀ k ∈ s.2.1,
        strContains (pyStrip (pyLower q)) k = false) →
      determineBestAgentA2A q = ("greeting_agent", 1 / 2)) ∧
    (∀ (keywords : List String) (queryLower : String),
      keywordConfidence keywords queryLower =
        if 1 ≤ (keywords.filter (fun k => strContains queryLower k)).length then
          min
            (min
              (((keywords.filter (fun k => strContains queryLower k)).length : ℚ) /
                (keywords.length : ℚ)) 1 * (12 / 10)) 1
        else
          min
            (((keywords.filter (fun k => strContains queryLower k)).length : ℚ) /
              (keywords.length : ℚ)) 1) ∧
    (∀ (q : String) (a : String) (c : ℚ), determineBestAgentA2A q = (a, c) →
      (a, c) = ("greeting_agent", 1 / 2) ∨
      (∃ kws th, (a, kws, th) ∈ agentSpecializations ∧
        c = keywordConfidence kws (pyStrip (pyLower q)) ∧ th ≤ c)) := by
  have zeroConf : ∀ (kws : List String) (qL : String),
      (∀ k ∈ kws, strContains qL k = false) →
      keywordConfidence kws qL = 0 := by
    intro kws qL hall
    unfold keywordConfidence
    have hfil : kws.filter (fun k => strContains qL k) = [] := by
      rw [List.filter_eq_nil_iff]
      intro k hk
      simp [hall k hk]
    simp [hfil]
  refine ⟨?_, ?_, ?_⟩
  · intro q hq
    have hg := zeroConf greetingKeywords (pyStrip (pyLower q))
      (hq ("greeting_agent", (greetingKeywords, 8 / 10))
        (by simp [agentSpecializations]))
    have hh := zeroConf hrKeywords (pyStrip (pyLower q))
      (hq ("hr_agent", (hrKeywords, 9 / 10)) (by simp [agentSpecializations]))
    unfold determineBestAgentA2A
    simp only [agentSpecializations, List.foldl]
    rw [hg, hh]
    norm_num
  · intro kws qL
    unfold keywordConfidence
    rcases Nat.eq_zero_or_pos (kws.filter (fun k => strContains qL k)).length
      with h0 | hpos
    · simp [h0]
    · have hle : 1 ≤ (kws.filter (fun k => strContains qL k)).length := hpos
      have hlen : 0 < kws.length :=
        lt_of_lt_of_le hpos (List.length_filter_le _ _)
      have hdiv : (0:ℚ) <
          ((kws.filter (fun k => strContains qL k)).length : ℚ) /
            (kws.length : ℚ) := by
        apply div_pos
        · exact_mod_cast hpos
        · exact_mod_cast hlen
      have hconf : (0:ℚ) <
          min (((kws.filter (fun k => strContains qL k)).length : ℚ) /
            (kws.length : ℚ)) 1 := lt_min hdiv one_pos
      rw [if_pos hconf, if_pos hle]
  · intro q a c heq
    rcases router_cases q with h | ⟨h, hth⟩ | ⟨h, hth⟩
    · left
      rw [heq] at h
      exact h
    · right
      rw [heq] at h
      injection h with ha hc
      subst ha
      exact ⟨greetingKeywords, 8 / 10, by simp [agentSpecializations], hc,
        by rw [hc]; exact hth⟩
    · right
      rw [heq] at h
      injection h with ha hc
      subst ha
      exact ⟨hrKeywords, 9 / 10, by simp [agentSpecializations], hc,
        by rw [hc]; exact hth⟩

/-- C9 witness: the query "zz" matches no keyword of either specialization
and routes to the greeting agent with confidence exactly 0.5. -/
theorem c9_witness : determineBestAgentA2A "zz" = ("greeting_agent", 1 / 2) :=
  c9_confidence_routing.1 "zz" (by decide)

theorem executeSingleTask_fields (outcome : Nat → Except String String) :
    ∀ (n : Nat) (task : TaskNode) (a : Nat),
      task.max_retries - task.retry_count = n →
      ((executeSingleTask outcome a task).1.task_id = task.task_id ∧
        (executeSingleTask outcome a task).1.dependencies = task.dependencies) := by
  intro n
  induction n with
  | zero =>
      intro task a h
      rw [executeSingleTask]
      cases ho : outcome a with
      | ok r => simp [ho]
      | error e =>
          have hn : ¬ (task.retry_count < task.max_retries) := by omega
          simp [ho, hn]
  | succ n ih =>
      intro task a h
      rw [executeSingleTask]
      cases ho : outcome a with
      | ok r => simp [ho]
      | error e =>
          by_cases hlt : task.retry_count < task.max_retries
          · simp only [ho, hlt, if_pos]
            have := ih
              { task with
                status := TaskStatus.FAILED
                error := some e
                retry_count := task.retry_count + 1 } (a + 1) (by simp; omega)
            simpa using this
          · simp [ho, hlt]

/-- The dependency-ordering property of an execution trace: starting from
the finished set `completed`, every recorded task has all its declared
dependencies already in the finished set when it is executed, each executed
task's id entering the finished set in trace order. -/
def depsRespectFrom : List String → List (TaskNode × Except String String) → Prop
  | _, [] => True
  | completed, (t, _) :: rest =>
      (∀ d ∈ t.dependencies, d ∈ completed) ∧
        depsRespectFrom (completed ++ [t.task_id]) rest

theorem depsRespect_mono :
    ∀ (l : List (TaskNode × Except String String)) (c c2 : List String),
      (∀ x ∈ c, x ∈ c2) → depsRespectFrom c l → depsRespectFrom c2 l := by
  intro l
  induction l with
  | nil => intro c c2 hsub h; trivial
  | cons e rest ih =>
      intro c c2 hsub h
      obtain ⟨hd, htail⟩ := h
      refine ⟨fun d hdm => hsub d (hd d hdm), ?_⟩
      refine ih _ _ ?_ htail
      intro x hx
      rcases List.mem_append.mp hx with h1 | h2
      · exact List.mem_append.mpr (Or.inl (hsub x h1))
      · exact List.mem_append.mpr (Or.inr h2)

theorem depsRespect_chain :
    ∀ (entries : List (TaskNode × Except String String)) (c : List String)
      (tail : List (TaskNode × Except String String)),
      (∀ e ∈ entries, ∀ d ∈ e.1.dependencies, d ∈ c) →
      depsRespectFrom (c ++ entries.map (fun e => e.1.task_id)) tail →
      depsRespectFrom c (entries ++ tail) := by
  intro entries
  induction entries with
  | nil =>
      intro c tail h1 h2
      simpa using h2
  | cons e es ih =>
      intro c tail h1 h2
      obtain ⟨t, r⟩ := e
      refine ⟨h1 (t, r) (List.mem_cons_self _ _), ?_⟩
      refine ih (c ++ [t.task_id]) tail ?_ ?_
      · intro e2 he2 d hd
        exact List.mem_append.mpr (Or.inl (h1 e2 (List.mem_cons_of_mem _ he2) d hd))
      · rw [List.append_assoc]
        simpa using h2

theorem mem_addAllCompleted :
    ∀ (ids : List String) (c : List String) (x : String),
      x ∈ addAllCompleted c ids ↔ x ∈ c ∨ x ∈ ids := by
  intro ids
  induction ids with
  | nil => simp [addAllCompleted]
  | cons i rest ih =>
      intro c x
      show x ∈ addAllCompleted (addCompleted c i) rest ↔ _
      rw [ih]
      unfold addCompleted
      split
      · constructor
        · rintro (h | h)
          · exact Or.inl h
          · exact Or.inr (List.mem_cons_of_mem _ h)
        · rintro (h | h)
          · exact Or.inl h
          · rcases List.mem_cons.mp h with rfl | h2
            · rename_i hmem
              exact Or.inl hmem
            · exact Or.inr h2
      · constructor
        · rintro (h | h)
          · rcases List.mem_append.mp h with h1 | h1
            · exact Or.inl h1
            · exact Or.inr (List.mem_cons.mpr (Or.inl (List.mem_singleton.mp h1)))
          · exact Or.inr (List.mem_cons_of_mem _ h)
        · rintro (h | h)
          · exact Or.inl (List.mem_append.mpr (Or.inl h))
          · rcases List.mem_cons.mp h with rfl | h2
            · exact Or.inl (List.mem_append.mpr (Or.inr (List.mem_singleton.mpr rfl)))
            · exact Or.inr h2

theorem nodup_addAllCompleted :
    ∀ (ids : List String) (c : List String), c.Nodup →
      (addAllCompleted c ids).Nodup := by
  intro ids
  induction ids with
  | nil => intro c h; exact h
  | cons i rest ih =>
      intro c h
      show (addAllCompleted (addCompleted c i) rest).Nodup
      refine ih _ ?_
      unfold addCompleted
      split
      · exact h
      · rename_i hnot
        simpa [List.nodup_append] using ⟨h, hnot⟩

theorem completed_covers (tasks : List TaskNode) (completed : List String)
    (hnd : completed.Nodup)
    (hsub : ∀ x ∈ completed, x ∈ tasks.map TaskNode.task_id)
    (hlen : tasks.length ≤ completed.length) :
    ∀ t ∈ tasks, t.task_id ∈ completed := by
  intro t ht
  by_contra hnot
  have h1 : completed.toFinset ⊆
      ((tasks.map TaskNode.task_id).toFinset).erase t.task_id := by
    intro x hx
    have hxc : x ∈ completed := List.mem_toFinset.mp hx
    refine Finset.mem_erase.mpr ⟨?_, List.mem_toFinset.mpr (hsub x hxc)⟩
    rintro rfl
    exact hnot hxc
  have h2 : completed.toFinset.card ≤
      ((tasks.map TaskNode.task_id).toFinset).card - 1 := by
    calc completed.toFinset.card
        ≤ (((tasks.map TaskNode.task_id).toFinset).erase t.task_id).card :=
          Finset.card_le_card h1
      _ = ((tasks.map TaskNode.task_id).toFinset).card - 1 :=
          Finset.card_erase_of_mem
            (List.mem_toFinset.mpr (List.mem_map_of_mem _ ht))
  have h3 : completed.toFinset.card = completed.length :=
    List.toFinset_card_of_nodup hnd
  have h4 : ((tasks.map TaskNode.task_id).toFinset).card ≤ tasks.length := by
    calc ((tasks.map TaskNode.task_id).toFinset).card
        ≤ (tasks.map TaskNode.task_id).length := List.toFinset_card_le _
      _ = tasks.length := List.length_map _ _
  have h5 : 1 ≤ ((tasks.map TaskNode.task_id).toFinset).card :=
    Finset.card_pos.mpr
      ⟨t.task_id, List.mem_toFinset.mpr (List.mem_map_of_mem _ ht)⟩
  omega

theorem hier_ok_main (env : String → Nat → Except String String)
    (tasks : List TaskNode) :
    ∀ (k : Nat) (completed : List String)
      (results res : List (TaskNode × Except String String)),
      tasks.length - completed.length ≤ k →
      completed.Nodup →
      (∀ x ∈ completed, x ∈ tasks.map TaskNode.task_id) →
      executeHierarchical env tasks completed results = Except.ok res →
      (∃ tail, res = results ++ tail ∧ depsRespectFrom completed tail) ∧
      (∀ t ∈ tasks, t.task_id ∈ completed ∨
        t.task_id ∈ res.map (fun e => e.1.task_id)) := by
  intro k
  induction k with
  | zero =>
      intro completed results res hk hnd hsub heq
      rw [executeHierarchical] at heq
      rw [dif_neg (by omega)] at heq
      injection heq with h
      subst h
      refine ⟨⟨[], by simp, trivial⟩, fun t ht => Or.inl ?_⟩
      exact completed_covers tasks completed hnd hsub (by omega) t ht
  | succ k ih =>
      intro completed results res hk hnd hsub heq
      rw [executeHierarchical] at heq
      by_cases hguard : completed.length < tasks.length
      · rw [dif_pos hguard] at heq
        by_cases hready : tasks.filter (taskReady completed) = []
        · rw [dif_pos hready] at heq
          cases heq
        · rw [dif_neg hready] at heq
          obtain ⟨t0, ht0⟩ := List.exists_mem_of_ne_nil _ hready
          have ht0not : t0.task_id ∉ completed :=
            (of_decide_eq_true (List.mem_filter.mp ht0).2).1
          have hgrow : completed.length <
              (addAllCompleted completed
                ((tasks.filter (taskReady completed)).map TaskNode.task_id)).length :=
            addAllCompleted_length_gt _ _ t0.task_id
              (List.mem_map_of_mem _ ht0) ht0not
          have hk2 : tasks.length -
              (addAllCompleted completed
                ((tasks.filter (taskReady completed)).map TaskNode.task_id)).length ≤
                k := by omega
          have hnd2 := nodup_addAllCompleted
            ((tasks.filter (taskReady completed)).map TaskNode.task_id) completed hnd
          have hsub2 : ∀ x ∈ addAllCompleted completed
              ((tasks.filter (taskReady completed)).map TaskNode.task_id),
              x ∈ tasks.map TaskNode.task_id := by
            intro x hx
            rcases (mem_addAllCompleted _ _ _).mp hx with h1 | h1
            · exact hsub x h1
            · obtain ⟨t, htf, rfl⟩ := List.mem_map.mp h1
              exact List.mem_map_of_mem _ (List.mem_of_mem_filter htf)
          obtain ⟨⟨tail, htail, hdeps⟩, hcover⟩ := ih _ _ res hk2 hnd2 hsub2 heq
          have hids : List.map (fun e => e.1.task_id)
              ((tasks.filter (taskReady completed)).map
                (fun t => executeSingleTask (env t.task_id) 0 t)) =
              (tasks.filter (taskReady completed)).map TaskNode.task_id := by
            rw [List.map_map]
            apply List.map_congr_left
            intro t ht
            exact (executeSingleTask_fields (env t.task_id)
              (t.max_retries - t.retry_count) t 0 rfl).1
          constructor
          · refine ⟨(tasks.filter (taskReady completed)).map
              (fun t => executeSingleTask (env t.task_id) 0 t) ++ tail, ?_, ?_⟩
            · rw [htail, List.append_assoc]
            · apply depsRespect_chain
              · intro e he d hd
                obtain ⟨t, htf, rfl⟩ := List.mem_map.mp he
                have hdep := (of_decide_eq_true (List.mem_filter.mp htf).2).2
                have hfields := (executeSingleTask_fields (env t.task_id)
                  (t.max_retries - t.retry_count) t 0 rfl).2
                rw [hfields] at hd
                exact hdep d hd
              · rw [hids]
                refine depsRespect_mono tail _ _ ?_ hdeps
                intro x hx
                rcases (mem_addAllCompleted _ _ _).mp hx with h1 | h1
                · exact List.mem_append.mpr (Or.inl h1)
                · exact List.mem_append.mpr (Or.inr h1)
          · intro t ht
            rcases hcover t ht with hin | hin
            · rcases (mem_addAllCompleted _ _ _).mp hin with h1 | h1
              · exact Or.inl h1
              · right
                rw [htail]
                simp only [List.map_append, List.mem_append]
                left; right
                rw [hids]
                exact h1
            · exact Or.inr hin
      · rw [dif_neg hguard] at heq
        injection heq with h
        subst h
        refine ⟨⟨[], by simp, trivial⟩, fun t ht => Or.inl ?_⟩
        exact completed_covers tasks completed hnd hsub (by omega) t ht

/-- Environment for the concrete hierarchical runs: the agent call for task
"A" always fails with "boom"; any other task succeeds with "fine". -/
def envC2 : String → Nat → Except String String :=
  fun tid _ => if tid = "A" then Except.error "boom" else Except.ok "fine"

/-- Root task "A" with no dependencies whose agent always fails. -/
def taskC2a : TaskNode :=
  { task_id := "A"
    description := "failing root"
    agent_id := "hr_agent_specialist"
    dependencies := []
    status := TaskStatus.PENDING
    result := none
    error := none
    retry_count := 0
    max_retries := 0
    metadata_critical := false }

/-- Task "B" declaring a dependency on "A". -/
def taskC2b : TaskNode :=
  { task_id := "B"
    description := "dependent step"
    agent_id := "greeting_agent_social"
    dependencies := ["A"]
    status := TaskStatus.PENDING
    result := none
    error := none
    retry_count := 0
    max_retries := 0
    metadata_critical := false }

/-- C2 counterexample: in the hierarchical pattern, task "A" fails (ends
FAILED with error "boom") yet its id still enters the `completed_tasks`
set, so in the next round its dependent "B" is ready and IS handed to
`_execute_single_task`, running to COMPLETED — a task whose declared
dependency ended FAILED does start running. -/
theorem c2_counterexample :
    executeHierarchicalFull envC2 [taskC2a, taskC2b] =
      Except.ok
        [({ taskC2a with status := TaskStatus.FAILED, error := some "boom" },
           Except.error "boom"),
         ({ taskC2b with status := TaskStatus.COMPLETED, result := some "fine" },
           Except.ok "fine")] := by
  have hstep1 : executeSingleTask (envC2 taskC2a.task_id) 0 taskC2a =
      ({ taskC2a with status := TaskStatus.FAILED, error := some "boom" },
        Except.error "boom") := by
    rw [executeSingleTask]
    simp [envC2, taskC2a]
  have hstep2 : executeSingleTask (envC2 taskC2b.task_id) 0 taskC2b =
      ({ taskC2b with status := TaskStatus.COMPLETED, result := some "fine" },
        Except.ok "fine") := by
    rw [executeSingleTask]
    simp [envC2, taskC2b]
  have r1 : executeHierarchicalFull envC2 [taskC2a, taskC2b] =
      executeHierarchical envC2 [taskC2a, taskC2b] ["A"]
        [({ taskC2a with status := TaskStatus.FAILED, error := some "boom" },
          Except.error "boom")] := by
    rw [executeHierarchicalFull, executeHierarchical, dif_pos (by decide)]
    rw [(by decide :
      List.filter (taskReady []) [taskC2a, taskC2b] = [taskC2a])]
    rw [dif_neg (by decide)]
    simp only [List.map_cons, List.map_nil, List.nil_append]
    rw [hstep1]
    simp [addAllCompleted, addCompleted, taskC2a]
  have r2 : executeHierarchical envC2 [taskC2a, taskC2b] ["A"]
        [({ taskC2a with status := TaskStatus.FAILED, error := some "boom" },
          Except.error "boom")] =
      executeHierarchical envC2 [taskC2a, taskC2b] ["A", "B"]
        [({ taskC2a with status := TaskStatus.FAILED, error := some "boom" },
          Except.error "boom"),
         ({ taskC2b with status := TaskStatus.COMPLETED, result := some "fine" },
          Except.ok "fine")] := by
    rw [executeHierarchical, dif_pos (by decide)]
    rw [(by decide :
      List.filter (taskReady ["A"]) [taskC2a, taskC2b] = [taskC2b])]
    rw [dif_neg (by decide)]
    simp only [List.map_cons, List.map_nil]
    rw [hstep2]
    simp [addAllCompleted, addCompleted, taskC2b]
  rw [r1, r2, executeHierarchical, dif_neg (by decide)]

/-- C2 amended: in any hierarchical run that returns normally, a task is
handed to `_execute_single_task` only when every task_id in its
dependencies list is already in the finished set — the set of tasks that
ended either COMPLETED or FAILED — i.e. every dependency appears earlier in
the execution trace; a FAILED dependency does not block (nor prevent) its
dependents from running. -/
theorem c2_deps_finished_before_start
    (env : String → Nat → Except String String) (tasks : List TaskNode)
    (res : List (TaskNode × Except String String))
    (h : executeHierarchicalFull env tasks = Except.ok res) :
    depsRespectFrom [] res := by
  obtain ⟨⟨tail, htail, hdeps⟩, -⟩ := hier_ok_main env tasks tasks.length [] [] res
    (by omega) List.nodup_nil (by intro x hx; cases hx) h
  rw [List.nil_append] at htail
  subst htail
  exact hdeps

/-- C2 witness: the dependency-ordering theorem applied to the concrete
two-task run in which "A" fails and "B" still executes after it. -/
theorem c2_witness :
    depsRespectFrom []
      [({ taskC2a with status := TaskStatus.FAILED, error := some "boom" },
         Except.error "boom"),
       ({ taskC2b with status := TaskStatus.COMPLETED, result := some "fine" },
         Except.ok "fine")] := by
  refine c2_deps_finished_before_start envC2 [taskC2a, taskC2b]
    [({ taskC2a with status := TaskStatus.FAILED, error := some "boom" },
       Except.error "boom"),
     ({ taskC2b with status := TaskStatus.COMPLETED, result := some "fine" },
       Except.ok "fine")] ?_
  have hstep1 : executeSingleTask (envC2 taskC2a.task_id) 0 taskC2a =
      ({ taskC2a with status := TaskStatus.FAILED, error := some "boom" },
        Except.error "boom") := by
    rw [executeSingleTask]
    simp [envC2, taskC2a]
  have hstep2 : executeSingleTask (envC2 taskC2b.task_id) 0 taskC2b =
      ({ taskC2b with status := TaskStatus.COMPLETED, result := some "fine" },
        Except.ok "fine") := by
    rw [executeSingleTask]
    simp [envC2, taskC2b]
  have r1 : executeHierarchicalFull envC2 [taskC2a, taskC2b] =
      executeHierarchical envC2 [taskC2a, taskC2b] ["A"]
        [({ taskC2a with status := TaskStatus.FAILED, error := some "boom" },
          Except.error "boom")] := by
    rw [executeHierarchicalFull, executeHierarchical, dif_pos (by decide)]
    rw [(by decide :
      List.filter (taskReady []) [taskC2a, taskC2b] = [taskC2a])]
    rw [dif_neg (by decide)]
    simp only [List.map_cons, List.map_nil, List.nil_append]
    rw [hstep1]
    simp [addAllCompleted, addCompleted, taskC2a]
  have r2 : executeHierarchical envC2 [taskC2a, taskC2b] ["A"]
        [({ taskC2a with status := TaskStatus.FAILED, error := some "boom" },
          Except.error "boom")] =
      executeHierarchical envC2 [taskC2a, taskC2b] ["A", "B"]
        [({ taskC2a with status := TaskStatus.FAILED, error := some "boom" },
          Except.error "boom"),
         ({ taskC2b with status := TaskStatus.COMPLETED, result := some "fine" },
          Except.ok "fine")] := by
    rw [executeHierarchical, dif_pos (by decide)]
    rw [(by decide :
      List.filter (taskReady ["A"]) [taskC2a, taskC2b] = [taskC2b])]
    rw [dif_neg (by decide)]
    simp only [List.map_cons, List.map_nil]
    rw [hstep2]
    simp [addAllCompleted, addCompleted, taskC2b]
  rw [r1, r2, executeHierarchical, dif_neg (by decide)]

/-- Environment whose agent calls always succeed with "done". -/
def envC8 : String → Nat → Except String String :=
  fun _ _ => Except.ok "done"

/-- Task "A" depending on "B" (half of a dependency cycle). -/
def taskC8a : TaskNode :=
  { task_id := "A"
    description := "cycle half one"
    agent_id := "hr_agent_specialist"
    dependencies := ["B"]
    status := TaskStatus.PENDING
    result := none
    error := none
    retry_count := 0
    max_retries := 3
    metadata_critical := false }

/-- Task "B" depending on "A" (the other half of the cycle). -/
def taskC8b : TaskNode :=
  { task_id := "B"
    description := "cycle half two"
    agent_id := "greeting_agent_social"
    dependencies := ["A"]
    status := TaskStatus.PENDING
    result := none
    error := none
    retry_count := 0
    max_retries := 3
    metadata_critical := false }

/-- C8: the hierarchical loop is total (the Lean embedding is a terminating
function, its measure strictly decreasing each round as proved in
`executeHierarchical`'s termination argument).  First conjunct: on the
cyclic pair A↔B the first round finds an empty ready set and raises the
fatal circular-dependency error rather than looping.  Second conjunct: no
silent drop — any run that returns normally has executed every task: each
task's id occurs in the execution trace. -/
theorem c8_cycle_error_and_no_silent_drop :
    executeHierarchicalFull envC8 [taskC8a, taskC8b] =
      Except.error "Circular dependency or unresolvable dependencies detected" ∧
    (∀ (env : String → Nat → Except String String) (tasks : List TaskNode)
      (res : List (TaskNode × Except String String)),
      executeHierarchicalFull env tasks = Except.ok res →
      ∀ t ∈ tasks, t.task_id ∈ res.map (fun e => e.1.task_id)) := by
  constructor
  · rw [executeHierarchicalFull, executeHierarchical, dif_pos (by decide)]
    rw [(by decide : List.filter (taskReady []) [taskC8a, taskC8b] = [])]
    rw [dif_pos rfl]
  · intro env tasks res h t ht
    obtain ⟨-, hcover⟩ := hier_ok_main env tasks tasks.length [] [] res
      (by omega) List.nodup_nil (by intro x hx; cases hx) h
    rcases hcover t ht with hin | hin
    · cases hin
    · exact hin

/-- A single dependency-free task used to witness the no-silent-drop
clause. -/
def taskC8w : TaskNode :=
  { task_id := "W"
    description := "standalone step"
    agent_id := "hr_agent_specialist"
    dependencies := []
    status := TaskStatus.PENDING
    result := none
    error := none
    retry_count := 0
    max_retries := 0
    metadata_critical := false }

/-- C8 witness: the no-silent-drop clause at a concrete one-task workflow:
the task's id appears in the trace of its completed run. -/
theorem c8_witness :
    taskC8w.task_id ∈ List.map (fun e => e.1.task_id)
      ([({ taskC8w with status := TaskStatus.COMPLETED, result := some "done" },
        Except.ok "done")] : List (TaskNode × Except String String)) :=
  c8_cycle_error_and_no_silent_drop.2 envC8 [taskC8w]
    [({ taskC8w with status := TaskStatus.COMPLETED, result := some "done" },
      Except.ok "done")]
    (by
      have hstep : executeSingleTask (envC8 taskC8w.task_id) 0 taskC8w =
          ({ taskC8w with status := TaskStatus.COMPLETED, result := some "done" },
            Except.ok "done") := by
        rw [executeSingleTask]
        simp [envC8, taskC8w]
      have r1 : executeHierarchicalFull envC8 [taskC8w] =
          executeHierarchical envC8 [taskC8w] ["W"]
            [({ taskC8w with
                status := TaskStatus.COMPLETED
                result := some "done" }, Except.ok "done")] := by
        rw [executeHierarchicalFull, executeHierarchical, dif_pos (by decide)]
        rw [(by decide : List.filter (taskReady []) [taskC8w] = [taskC8w])]
        rw [dif_neg (by decide)]
        simp only [List.map_cons, List.map_nil, List.nil_append]
        rw [hstep]
        simp [addAllCompleted, addCompleted, taskC8w]
      rw [r1, executeHierarchical, dif_neg (by decide)])
    taskC8w (by simp)
